import Mathlib

/-!
Verification of `kaggle-rs` (`src/client.rs`) against its specification.

The development shallowly embeds the data model and the operations of the
client: pure fragments of the Rust source become Lean functions, fallible
fragments return `Except`, network responses and filesystem metadata are
explicit inputs, and the requests an operation would issue are reified as
values so that theorems can speak about them.
-/

namespace KaggleRs


/-- Errors of the API, mirroring `ApiError` in `src/client.rs`. -/

inductive ApiError
| Unauthorized
| RateLimited (retryAfter : Option Nat)
| Other (status : Nat)
deriving DecidableEq, Repr

/-- A byte on which the http crate's `HeaderValue::to_str` succeeds: visible
ASCII (0x20 to 0x7e) or horizontal tab. -/

def visibleAsciiByte (b : Nat) : Bool := (32 ≤ b && b < 127) || b == 9

/-- Model of `HeaderValue::to_str`: succeeds iff every byte of the header value
is visible ASCII or tab, yielding those bytes as characters. -/

def headerToStr (bytes : List Nat) : Option String :=
  if bytes.all visibleAsciiByte then some (String.mk (bytes.map Char.ofNat)) else none

/-- The numeric value of an ASCII digit. -/

def digitVal (c : Char) : Option Nat := if c.isDigit then some (c.toNat - 48) else none

/-- Accumulate decimal digits; fails on the first non-digit character. -/

def parseDigitsAux : List Char → Nat → Option Nat
  | [], acc => some acc
  | c :: cs, acc =>
    match digitVal c with
    | some d => parseDigitsAux cs (acc * 10 + d)
    | none => none

/-- Model of Rust `str::parse` to an unsigned 64-bit integer (`u64`/`usize` on a
64-bit target): an optional leading plus sign, then one or more ASCII digits,
with the resulting value below 2^64. -/

def parseU64 (s : String) : Option Nat :=
  let cs := match s.data with
    | '+' :: rest => rest
    | cs => cs
  match cs with
  | [] => none
  | _ =>
    match parseDigitsAux cs 0 with
    | some n => if n < 2 ^ 64 then some n else none
    | none => none

/-- Outcome of the status handling in `KaggleApiClient::request`. -/

inductive RequestOutcome
| success
| apiError (e : ApiError)
| panicked
deriving DecidableEq, Repr

/-- Status classification of `KaggleApiClient::request` (src/client.rs 329-348),
as a function of the response status code and the raw bytes of the `Retry-After`
response header (`none` when the header is absent). The source reads the header
with `resp.headers()[reqwest::header::RETRY_AFTER]`, and the `Index`
implementation of the http crate's `HeaderMap` panics when the key is not
present; that panic is modelled by `RequestOutcome.panicked`. When the header is
present, `to_str` failure (non-visible-ASCII bytes) yields `RateLimited(None)`
and otherwise the value is parsed with `str::parse::<usize>` whose failure is
absorbed by `.ok()`. -/

def request_outcome (status : Nat) (retryAfter : Option (List Nat)) : RequestOutcome :=
  if 200 ≤ status && status ≤ 299 then .success
  else if status == 401 then .apiError .Unauthorized
  else if status == 429 then
    match retryAfter with
    | none => .panicked
    | some bytes =>
      match headerToStr bytes with
      | some s => .apiError (.RateLimited (parseU64 s))
      | none => .apiError (.RateLimited none)
  else .apiError (.Other status)

/-- The UTF-8 encoding of a character, as its list of bytes. -/

def utf8Bytes (c : Char) : List Nat :=
  let n := c.toNat
  if n < 128 then [n]
  else if n < 2048 then [192 + n / 64, 128 + n % 64]
  else if n < 65536 then [224 + n / 4096, 128 + n / 64 % 64, 128 + n % 64]
  else [240 + n / 262144, 128 + n / 4096 % 64, 128 + n / 64 % 64, 128 + n % 64]

/-- The UTF-8 bytes of a string. -/

def strBytes (s : String) : List Nat := (s.data.map utf8Bytes).flatten

/-- Model of Rust `str::split` with a single-character separator, over the
string's characters: splitting the empty string yields one empty part, and
each occurrence of the separator starts a new part. -/

def splitChar (sep : Char) : List Char → List (List Char)
  | [] => [[]]
  | c :: cs =>
    if c == sep then [] :: splitChar sep cs
    else
      match splitChar sep cs with
      | [] => [[c]]
      | p :: ps => (c :: p) :: ps

/-- Rust `str::split(sep)` collected into a vector of strings. -/

def rsplit (sep : Char) (s : String) : List String :=
  (splitChar sep s.data).map String.mk

/-- Extraction of `(guid, content_length, last_modified_seconds)` on the Legacy
path of `competition_submit` (src/client.rs 639-651): the `createUrl` is split
on a slash, the parts are collected in reverse, fewer than three parts is an
error, and otherwise the upload proceeds with `parts[0]` as the guid while
`parts[1]` and `parts[2]` are parsed as unsigned 64-bit integers (a parse
failure propagates Rust's `FromStr` error message). -/

def legacyExtractParts (parts : List String) : Except String (String × Nat × Nat) :=
  match parts.reverse with
  | g :: c :: l :: _ =>
    match parseU64 c with
    | none => .error ("invalid digit found in string")
    | some contentLength =>
      match parseU64 l with
      | none => .error ("invalid digit found in string")
      | some lastModified => .ok (g, contentLength, lastModified)
  | _ => .error ("createUrl response with incomplete segments")

/-- The Legacy-path extraction applied to a `createUrl` string. -/

def legacyExtract (urlList : String) : Except String (String × Nat × Nat) :=
  legacyExtractParts (rsplit '/' urlList)

/-- JSON values, as `serde_json::Value`; an object is a finite key-value map,
modelled as an association list with distinct keys. -/

inductive Json
| null
| bool (b : Bool)
| num (n : Int)
| str (s : String)
| arr (elems : List Json)
| obj (fields : List (String × Json))

/-- Model of `serde_json::Map::get`. -/

def objGet (fields : List (String × Json)) (key : String) : Option Json :=
  (fields.find? (fun p => p.1 == key)).map (fun p => p.2)

/-- Model of `serde_json::Value::as_object`. -/

def Json.asObject : Json → Option (List (String × Json))
  | .obj fields => some fields
  | _ => none

/-- Model of `serde_json::Value::as_str`. -/

def Json.asStr : Json → Option String
  | .str s => some s
  | _ => none

/-- The upload request `competition_submit` issues after branching: the Legacy
branch posts a multipart form with a streamed `file` part to the
upload-by-guid endpoint, the Direct branch PUTs the raw streamed file body
(no multipart wrapping) to the negotiated URL via `upload_complete`. -/

inductive UploadAction
| legacyMultipartPost (guid : String) (contentLength : Nat) (lastModifiedSecs : Nat)
| directPut (url : String)

/-- The branch body of `competition_submit` (src/client.rs 633-662): if the
negotiation response object has an `isComplete` key (whatever its value), the
Legacy path extracts and parses the `createUrl` segments and posts to the
upload-by-guid endpoint, whose response becomes the upload result; otherwise
the Direct path PUTs to `createUrl` and the upload result is the original
negotiation response. `legacyResp` is the response of the legacy upload call. -/

def submitUploadStage (fields : List (String × Json)) (urlResult legacyResp : Json) :
    Except String (UploadAction × Json) :=
  if (objGet fields ("isComplete")).isSome then
    match (objGet fields ("createUrl")).bind Json.asStr with
    | none => .error ("Missing `createUrl` field")
    | some urlList =>
      match legacyExtractParts (rsplit '/' urlList) with
      | .error e => .error e
      | .ok (guid, contentLength, lastModified) =>
        .ok (.legacyMultipartPost guid contentLength lastModified, legacyResp)
  else
    match (objGet fields ("createUrl")).bind Json.asStr with
    | none => .error ("Missing createUrl in response")
    | some url => .ok (.directPut url, urlResult)

/-- The pre-finalize stage of `KaggleApiClient::competition_submit`
(src/client.rs 628-668) as a function of the URL-negotiation response
`urlResult` and of the JSON value `legacyResp` the legacy upload endpoint
returns when called. Yields the upload request issued, the upload result
object, and the token passed to `competitions_submissions_submit`; on an error
no upload and no finalize request is issued. -/

def competitionSubmitPlan (urlResult legacyResp : Json) :
    Except String (UploadAction × Json × String) :=
  match urlResult.asObject with
  | none => .error ("Expected json response object")
  | some fields =>
    match submitUploadStage fields urlResult legacyResp with
    | .error e => .error e
    | .ok (act, uploadResult) =>
      match uploadResult.asObject.bind (fun o => objGet o ("token")) |>.bind Json.asStr with
      | none => .error ("Missing upload token")
      | some token => .ok (act, uploadResult, token)

/-- A negotiation response carrying `isComplete: false`, exercising the Legacy
branch with a well-formed `createUrl`. -/

def legacyFalseFields : List (String × Json) :=
  [(("isComplete"), Json.bool false), (("createUrl"), Json.str ("http://x/9/7/5"))]

/-- A legacy upload response carrying a token. -/

def legacyTokenObj : Json := .obj [(("token"), Json.str ("ltok"))]

/-- The Direct-path negotiation response of the spec's example. -/

def directFields : List (String × Json) :=
  [(("createUrl"), Json.str ("http://signed-url")), (("token"), Json.str ("tok1"))]

/-- A Legacy-shaped response with no `createUrl`. -/

def legacyMissingUrlFields : List (String × Json) := [(("isComplete"), Json.bool true)]

/-- A Direct-shaped response with no `createUrl`. -/

def directMissingUrlFields : List (String × Json) := [(("token"), Json.str ("t"))]

/-- A URL, reduced to the parts this client manipulates. -/

structure Url where
  scheme : String
  host : String
  path : String
deriving DecidableEq, Repr

/-- The standard base64 alphabet. -/

def base64Alphabet : List Char :=
  ("ABCDEFGHIJKLMNOPQRSTUVWXYZabcdefghijklmnopqrstuvwxyz0123456789+/").data

/-- The base64 digit for a 6-bit value. -/

def base64Digit (n : Nat) : Char := base64Alphabet.getD n '='

/-- Standard base64 with padding, as produced by `base64::write::EncoderWriter`
with the `base64::STANDARD` configuration. -/

def base64Encode : List Nat → List Char
  | [] => []
  | [a] => [base64Digit (a / 4), base64Digit (a % 4 * 16), '=', '=']
  | [a, b] =>
    [base64Digit (a / 4), base64Digit (a % 4 * 16 + b / 16), base64Digit (b % 16 * 4), '=']
  | a :: b :: c :: rest =>
    base64Digit (a / 4) :: base64Digit (a % 4 * 16 + b / 16) ::
      base64Digit (b % 16 * 4 + c / 64) :: base64Digit (c % 64) :: base64Encode rest

/-- The authorization header value assembled in `KaggleApiClientBuilder::build`
(src/client.rs 147-156): the bytes of `Basic ` followed by the base64 encoding
of `user_name:key`. -/

def authHeaderValue (user_name key : String) : String :=
  ("Basic ") ++ String.mk (base64Encode (strBytes (user_name ++ (":") ++ key)))

/-- Model of `HeaderMap::insert`: all previous values associated with the key
are removed and the new pair is added. -/

def headerInsert (hs : List (String × String)) (k v : String) : List (String × String) :=
  hs.filter (fun p => p.1 != k) ++ [(k, v)]

/-- The default user agent, `concat!(CARGO_PKG_NAME, "/", CARGO_PKG_VERSION)`;
the crate metadata is outside the source under scrutiny, and no claim depends
on the value. -/

def defaultUserAgent : String := "kaggle/0"

/-- An already-constructed `reqwest::Client`, abstracted to the default headers
it attaches to every request it issues. -/

structure HttpClient where
  defaultHeaders : List (String × String)

/-- Resolved API credentials, as `KaggleCredentials` in src/client.rs. -/

structure KaggleCredentials where
  user_name : String
  key : String

/-- The builder state of `KaggleApiClientBuilder` (src/client.rs 90-98).
Credential resolution from the environment or a config file is an external
collaborator (spec section 1), so the builder is modelled with the resolved
credentials; the download directory is a filesystem effect no claim inspects. -/

structure KaggleApiClientBuilder where
  base_url : Url
  user_agent : Option String
  client : Option HttpClient
  headers : Option (List (String × String))
  auth : KaggleCredentials

/-- The built client, abstracted to what the claims inspect: the default
headers that the underlying HTTP client attaches to every request it issues,
the base URL, and the stored credentials. -/

structure KaggleApiClient where
  clientDefaultHeaders : List (String × String)
  base_url : Url
  credentials : KaggleCredentials

/-- Model of `KaggleApiClientBuilder::build` (src/client.rs 139-192): the
authorization and user-agent headers are inserted into the configured header
map and a new HTTP client is built with those default headers - unless the
caller supplied a client, which is then used as it is (its own default headers
stand and the computed header map is dropped). -/

def build (b : KaggleApiClientBuilder) : KaggleApiClient :=
  let headers0 := b.headers.getD []
  let headers1 :=
    headerInsert headers0 ("authorization") (authHeaderValue b.auth.user_name b.auth.key)
  let headers2 := headerInsert headers1 ("user-agent") ((b.user_agent).getD defaultUserAgent)
  let clientHeaders :=
    match b.client with
    | some c => c.defaultHeaders
    | none => headers2
  { clientDefaultHeaders := clientHeaders, base_url := b.base_url, credentials := b.auth }

/-- The default base URL of `KaggleApiClientBuilder::default`
(src/client.rs 198): `https://www.kaggle.com/api/v1`, with no trailing slash
in the path. -/

def default_base_url : Url :=
  { scheme := ("https"), host := ("www.kaggle.com"), path := ("/api/v1") }

/-- A builder given a caller-supplied HTTP client whose default headers are
empty, together with explicit credentials. -/

def customClientBuilder : KaggleApiClientBuilder :=
  { base_url := default_base_url, user_agent := none,
    client := some { defaultHeaders := [] }, headers := none,
    auth := { user_name := ("name"), key := ("key") } }

/-- A builder with no caller-supplied client. -/

def defaultishBuilder : KaggleApiClientBuilder :=
  { base_url := default_base_url, user_agent := none, client := none, headers := none,
    auth := { user_name := ("name"), key := ("key") } }

/-- Model of `KaggleApiClient::get_file_metadata` (src/client.rs 389-399), in
whole seconds: the file length paired with
`meta.modified().unwrap_or_else(|_| SystemTime::now()).elapsed()?`, where
`elapsed` is the duration from the modification time to the present clock
reading and fails when the modification time lies in the future. -/

def get_file_metadata (contentLength : Nat) (modifiedSecs : Option Nat) (nowSecs : Nat) :
    Except String (Nat × Nat) :=
  let m := modifiedSecs.getD nowSecs
  if m ≤ nowSecs then .ok (contentLength, nowSecs - m)
  else .error ("second time provided was later than self")

/-- The path of the dataset upload negotiation endpoint
(src/client.rs 916-920): content length, then the seconds of the duration
produced by `get_file_metadata` as the final path segment. -/

def datasets_upload_file_path (contentLength lastModifiedSecs : Nat) : String :=
  ("/datasets/upload/file/") ++ toString contentLength ++ ("/") ++ toString lastModifiedSecs

/-- Modelled from the spec: a resource metadata entry of the dataset metadata
file (spec sections 3, 4.4, 4.6; the `models::metadata::Resource` type is not
part of the source under scrutiny). It carries the file path it describes, an
optional description, and an optional schema whose processed columns are the
ordered column descriptors copied onto an upload. -/

structure Resource where
  path : String
  description : Option String
  schema : Option (List String)

/-- Modelled from the spec: a `DatasetUploadFile` (spec section 3) is a token
with an optional description and optional ordered column descriptors; its
setters assign the corresponding field. -/

structure DatasetUploadFile where
  token : String
  description : Option String := none
  columns : Option (List String) := none

/-- Model of `KaggleApiClient::upload_file` (src/client.rs 401-420): read the
file metadata, negotiate the upload of `file_name` (the negotiator
`negotiate` stands for the `datasets_upload_file` network call and returns the
token of the server's `FileUploadInfo`), build a `DatasetUploadFile` from the
token, and copy the description, and the schema's processed columns when a
schema is present, from the matched resource `item`. -/

def upload_file (negotiate : String → Nat → Nat → String)
    (meta : Except String (Nat × Nat)) (file_name : String) (item : Option Resource) :
    Except String DatasetUploadFile :=
  match meta with
  | .error e => .error e
  | .ok (content_length, last_modified) =>
    let f : DatasetUploadFile := { token := negotiate file_name content_length last_modified }
    match item with
    | none => .ok f
    | some it =>
      let f := { f with description := it.description }
      match it.schema with
      | some cols => .ok { f with columns := some cols }
      | none => .ok f

/-- Kind of a directory entry the walker yields. -/

inductive EntryKind
| file
| directory

/-- A depth-one directory entry as the walker yields it: its file name (the
walker is an external collaborator, and name extraction is fallible only for
paths this model does not produce), its kind, and the metadata
`get_file_metadata` reads for it. -/

structure DirEntry where
  name : String
  kind : EntryKind
  meta : Except String (Nat × Nat)

/-- Resource lookup of `upload_files`: the resources are collected into a map
keyed by `path`, so a repeated path keeps the last entry. -/

def lookupResource (resources : List Resource) (name : String) : Option Resource :=
  resources.reverse.find? (fun r => r.path == name)

/-- Model of `KaggleApiClient::upload_files` (src/client.rs 422-472) over the
entries of a directory walk of depth exactly one: regular files are uploaded
in order through `upload_file`, matched against the resources by file name;
a sub-directory only provokes the creation of a temporary directory (an
external filesystem effect), its archiving and upload being unimplemented, so
it contributes no upload. -/

def upload_files (negotiate : String → Nat → Nat → String) (resources : List Resource) :
    List DirEntry → Except String (List DatasetUploadFile)
  | [] => .ok []
  | e :: rest =>
    match e.kind with
    | .file =>
      match upload_file negotiate e.meta e.name (lookupResource resources e.name) with
      | .error err => .error err
      | .ok u =>
        match upload_files negotiate resources rest with
        | .error err => .error err
        | .ok us => .ok (u :: us)
    | .directory => upload_files negotiate resources rest

/-- The one-file directory of the counterexample. -/

def singleFileEntries : List DirEntry :=
  [{ name := ("a.csv"), kind := .file, meta := .ok (3, 7) }]

/-- A resources list with an entry matching the file name but carrying no
schema. -/

def schemalessResources : List Resource :=
  [{ path := ("a.csv"), description := some ("d"), schema := none }]

/-- Model of `tokio_util::codec::BytesCodec` decoding: every non-empty buffer
is drained whole as one frame; an empty buffer produces no frame. -/

def bytesCodecDecode (buf : List Nat) : Option (List Nat) × List Nat :=
  if buf.isEmpty then (none, buf) else (some buf, [])

/-- Model of `FramedRead` driving `BytesCodec` over a reader whose successive
non-empty read results are `reads` (the chunking is the runtime's choice):
each read is appended to the internal buffer, the codec is polled, and at end
of input the remaining buffer is drained. `into_bytes_stream`
(src/client.rs 1024-1029) maps `freeze` over the produced frames, which leaves
their bytes unchanged, so the emitted chunks are these frames. -/

def framedReadFrames : List (List Nat) → List Nat → List (List Nat)
  | [], buf =>
    match bytesCodecDecode buf with
    | (some frame, _) => [frame]
    | (none, _) => []
  | r :: rs, buf =>
    match bytesCodecDecode (buf ++ r) with
    | (some frame, rest) => frame :: framedReadFrames rs rest
    | (none, rest) => framedReadFrames rs rest

/-- The chunk stream of `into_bytes_stream` for a file whose reader yields
`reads`. -/

def into_bytes_stream (reads : List (List Nat)) : List (List Nat) :=
  framedReadFrames reads []

/-- A C0 control or space character; the WHATWG URL parser strips these from
both ends of an input before parsing. -/

def isC0OrSpace (c : Char) : Bool := c.toNat ≤ 32

/-- Strip leading and trailing C0 controls and spaces from a character list. -/

def trimList (l : List Char) : List Char :=
  ((l.dropWhile isC0OrSpace).reverse.dropWhile isC0OrSpace).reverse

/-- The WHATWG input trimming applied by `Url::join` to its argument. -/

def trimInput (s : String) : String := String.mk (trimList s.data)

/-- The RFC 3986 path merge performed by the url crate for a relative path
reference: the base path up to and including its last slash, followed by the
reference. -/

def mergePath (basePath ref : String) : String :=
  String.mk ((basePath.data.reverse.dropWhile (fun c => c != '/')).reverse) ++ ref

/-- Model of `Url::join`, as used by `KaggleApiClient::join_url`
(src/client.rs 300-302), restricted to the reference shapes this client
builds: after input trimming, a reference starting with a slash replaces the
base path entirely, and otherwise a relative path reference is merged onto
the base path. Queries, fragments, schemes, dot segments and characters in
need of percent-encoding do not occur in the references the theorems below
consider. -/

def joinUrl (base : Url) (ref : String) : Url :=
  match (trimInput ref).data with
  | '/' :: _ => { base with path := trimInput ref }
  | _ => { base with path := mergePath base.path (trimInput ref) }

/-- The relative path of `competitions_list` (src/client.rs 485). -/

def competitions_list_path : String := "competitions/list"

/-- The absolute path of `competition_view_leaderboard` (src/client.rs 518). -/

def competition_view_leaderboard_path (id : String) : String :=
  ("/competitions/") ++ id ++ ("/leaderboard/view")

/-- The absolute path of `competitions_submissions_url`
(src/client.rs 730-735). -/

def competitions_submissions_url_path (id : String)
    (contentLength lastModifiedSecs : Nat) : String :=
  ("/competitions/") ++ id ++ ("/submissions/url/") ++ toString contentLength ++ ("/") ++
    toString lastModifiedSecs

/-- A plain path-segment byte: ASCII digit, letter, hyphen or underscore. The
url crate neither trims, percent-encodes nor otherwise rewrites these. -/

def plainChar (c : Char) : Bool :=
  (48 ≤ c.toNat && c.toNat ≤ 57) || (65 ≤ c.toNat && c.toNat ≤ 90) ||
    (97 ≤ c.toNat && c.toNat ≤ 122) || c.toNat == 45 || c.toNat == 95

/-- A string made of plain path-segment characters. -/

def plainSlug (s : String) : Bool := s.data.all plainChar

/-- Whether a request path carries `/api/v1` as a prefix. -/

def startsWithApiV1 (path : String) : Bool := List.isPrefixOf (("/api/v1").data) path.data

/-- C1: the claim states that a 429 response without a `Retry-After` header
yields `RateLimited(None)` and does not panic. On the code, indexing the header
map with a missing key panics, so `request` panics there; the remaining rows of
the classification table (401, 429 with a numeric header, any other non-2xx)
behave as claimed. -/
theorem request_outcome_429_missing_retry_after :
    request_outcome 429 none = RequestOutcome.panicked ∧
    request_outcome 401 none = .apiError .Unauthorized ∧
    request_outcome 429 (some (strBytes ("30"))) = .apiError (.RateLimited (some 30)) ∧
    request_outcome 418 none = .apiError (.Other 418) := by
  refine ⟨rfl, rfl, ?_, rfl⟩
  rfl

theorem splitChar_ne_nil (sep : Char) (cs : List Char) : splitChar sep cs ≠ [] := by
  induction cs with
  | nil => simp [splitChar]
  | cons c cs ih =>
    simp only [splitChar]
    by_cases h : c == sep
    · simp [h]
    · simp only [h, Bool.false_eq_true, if_false]
      cases hs : splitChar sep cs with
      | nil => exact absurd hs ih
      | cons p ps => simp

/-- A separator occurrence splits exactly: the parts of `xs ++ sep :: ys` are
the parts of `xs` followed by the parts of `ys`. -/
theorem splitChar_append_sep (sep : Char) (xs ys : List Char) :
    splitChar sep (xs ++ sep :: ys) = splitChar sep xs ++ splitChar sep ys := by
  induction xs with
  | nil => simp [splitChar]
  | cons c cs ih =>
    simp only [List.cons_append, splitChar, List.append_eq]
    by_cases h : c == sep
    · simp only [h, if_true, ih, List.cons_append]
    · simp only [h, Bool.false_eq_true, if_false]
      rw [ih]
      cases hs : splitChar sep cs with
      | nil => exact absurd hs (splitChar_ne_nil sep cs)
      | cons p ps => simp

/-- C2 counterexample: on a `createUrl` ending in the segments
`.../abc123/42/99` the extraction does not yield
`(guid = "abc123", content_length = 42, last_modified_secs = 99)`; the code
takes the last segment `"99"` as the guid and fails to parse `"abc123"` as the
last-modified seconds. -/
theorem legacy_extract_not_as_claimed :
    legacyExtract ("http://x/abc123/42/99") ≠ Except.ok (("abc123"), 42, 99) := by
  intro h
  exact Except.noConfusion
    (show (Except.error ("invalid digit found in string") : Except String (String × Nat × Nat)) =
        Except.ok (("abc123"), 42, 99) from h)

/-- C2 amended: the reversed split assigns the last segment to the guid, the
second-to-last to the content length and the third-to-last to the
last-modified seconds, so every `createUrl` ending in the segments
`.../99/42/abc123` extracts `(guid = "abc123", 42, 99)`; fewer than three
segments is an error. -/
theorem legacy_extract_amended :
    (∀ s : String, legacyExtract (s ++ ("/99/42/abc123")) = .ok (("abc123"), 42, 99)) ∧
    (∀ s : String, (rsplit '/' s).length < 3 → ∃ e, legacyExtract s = .error e) := by
  constructor
  · intro s
    have hdata : (s ++ ("/99/42/abc123")).data = s.data ++ '/' :: ("99/42/abc123").data :=
      String.data_append ..
    unfold legacyExtract rsplit
    rw [hdata, splitChar_append_sep, List.map_append]
    unfold legacyExtractParts
    rw [List.reverse_append]
    rfl
  · intro s h
    have hlen : ((rsplit '/' s).reverse).length < 3 := by
      rw [List.length_reverse]; exact h
    unfold legacyExtract legacyExtractParts
    rcases hrev : (rsplit '/' s).reverse with _ | ⟨g, _ | ⟨c, _ | ⟨l, rest⟩⟩⟩
    · exact ⟨_, rfl⟩
    · exact ⟨_, rfl⟩
    · exact ⟨_, rfl⟩
    · rw [hrev] at hlen; simp only [List.length_cons] at hlen; omega

theorem legacy_extract_amended_witness :
    legacyExtract (("http://x") ++ ("/99/42/abc123")) = .ok (("abc123"), 42, 99) ∧
    ∃ e, legacyExtract ("a/b") = .error e :=
  ⟨legacy_extract_amended.1 ("http://x"), legacy_extract_amended.2 ("a/b") (by decide)⟩

/-- C3: branch selection is purely structural on the negotiation response
object: whenever `competition_submit` reaches an upload, the request is the
Legacy multipart post (and the upload result is the legacy response) exactly
when the object contains an `isComplete` key, regardless of its value, and the
Direct PUT (with the original object as upload result) exactly otherwise. -/
theorem competition_submit_branch_structural
    (fields : List (String × Json)) (legacyResp : Json)
    (act : UploadAction) (res : Json) (tok : String)
    (h : competitionSubmitPlan (.obj fields) legacyResp = .ok (act, res, tok)) :
    ((objGet fields ("isComplete")).isSome = true ∧ res = legacyResp ∧
      ∃ g c l, act = .legacyMultipartPost g c l) ∨
    ((objGet fields ("isComplete")).isSome = false ∧ res = .obj fields ∧
      ∃ u, act = .directPut u ∧ (objGet fields ("createUrl")).bind Json.asStr = some u) := by
  simp only [competitionSubmitPlan, Json.asObject] at h
  split at h
  · exact Except.noConfusion h
  · rename_i act' upl heq
    split at h
    · exact Except.noConfusion h
    · rename_i t htok
      simp only [Except.ok.injEq, Prod.mk.injEq] at h
      obtain ⟨hact, hres, -⟩ := h
      subst hact
      subst hres
      simp only [submitUploadStage] at heq
      by_cases hc : (objGet fields ("isComplete")).isSome
      · rw [if_pos hc] at heq
        left
        refine ⟨hc, ?_⟩
        split at heq
        · exact Except.noConfusion heq
        · split at heq
          · exact Except.noConfusion heq
          · simp only [Except.ok.injEq, Prod.mk.injEq] at heq
            exact ⟨heq.2.symm, _, _, _, heq.1.symm⟩
      · rw [if_neg hc] at heq
        right
        refine ⟨by simpa using hc, ?_⟩
        split at heq
        · exact Except.noConfusion heq
        · rename_i url hurl
          simp only [Except.ok.injEq, Prod.mk.injEq] at heq
          exact ⟨heq.2.symm, url, heq.1.symm, hurl⟩

theorem competition_submit_branch_structural_witness :
    ((objGet legacyFalseFields ("isComplete")).isSome = true ∧
      legacyTokenObj = legacyTokenObj ∧
      ∃ g c l, UploadAction.legacyMultipartPost ("5") 7 9 = .legacyMultipartPost g c l) ∨
    ((objGet legacyFalseFields ("isComplete")).isSome = false ∧
      legacyTokenObj = .obj legacyFalseFields ∧
      ∃ u, UploadAction.legacyMultipartPost ("5") 7 9 = .directPut u ∧
        (objGet legacyFalseFields ("createUrl")).bind Json.asStr = some u) :=
  competition_submit_branch_structural legacyFalseFields legacyTokenObj
    (.legacyMultipartPost ("5") 7 9) legacyTokenObj ("ltok") rfl

/-- C4: on the Direct path (no `isComplete` key) the file is PUT to `createUrl`
with no multipart wrapping, the upload result used for finalization is the
original negotiation response object itself, and the finalize token is that
object's `token` field. -/
theorem competition_submit_direct_path
    (fields : List (String × Json)) (legacyResp : Json) (url tok : String)
    (h1 : objGet fields ("isComplete") = none)
    (h2 : objGet fields ("createUrl") = some (.str url))
    (h3 : objGet fields ("token") = some (.str tok)) :
    competitionSubmitPlan (.obj fields) legacyResp =
      .ok (.directPut url, .obj fields, tok) := by
  simp only [competitionSubmitPlan, submitUploadStage, Json.asObject, h1, h2, h3,
    Option.isSome_none, Bool.false_eq_true, if_false, Option.bind, Json.asStr,
    Option.some_bind]

theorem competition_submit_direct_path_witness :
    competitionSubmitPlan (.obj directFields) Json.null =
      .ok (.directPut ("http://signed-url"), .obj directFields, ("tok1")) :=
  competition_submit_direct_path directFields Json.null ("http://signed-url") ("tok1")
    rfl rfl rfl

/-- C5: a negotiation response object lacking a `createUrl` field fails with the
branch's missing-`createUrl` error on either path, without panicking, and no
upload action (and hence no finalize call) is produced. -/
theorem competition_submit_missing_create_url
    (fields : List (String × Json)) (legacyResp : Json)
    (h : objGet fields ("createUrl")  = none) :
    competitionSubmitPlan (.obj fields) legacyResp = .error ("Missing `createUrl` field") ∨
    competitionSubmitPlan (.obj fields) legacyResp = .error ("Missing createUrl in response") := by
  by_cases hc : (objGet fields ("isComplete")).isSome
  · left
    simp only [competitionSubmitPlan, submitUploadStage, Json.asObject, hc, if_true, h,
      Option.none_bind]
  · right
    simp only [competitionSubmitPlan, submitUploadStage, Json.asObject, hc,
      Bool.false_eq_true, if_false, h, Option.none_bind]

theorem competition_submit_missing_create_url_witness :
    (competitionSubmitPlan (.obj legacyMissingUrlFields) Json.null =
        .error ("Missing `createUrl` field") ∨
      competitionSubmitPlan (.obj legacyMissingUrlFields) Json.null =
        .error ("Missing createUrl in response")) ∧
    (competitionSubmitPlan (.obj directMissingUrlFields) Json.null =
        .error ("Missing `createUrl` field") ∨
      competitionSubmitPlan (.obj directMissingUrlFields) Json.null =
        .error ("Missing createUrl in response")) :=
  ⟨competition_submit_missing_create_url legacyMissingUrlFields Json.null rfl,
   competition_submit_missing_create_url directMissingUrlFields Json.null rfl⟩

/-- C6 counterexample: when the caller supplies their own HTTP client through
the builder's client setter, the built client's requests carry no
authorization header at all - the header map computed from the credentials is
dropped, so the claim fails for such clients. -/
theorem build_custom_client_lacks_auth :
    List.lookup ("authorization") (build customClientBuilder).clientDefaultHeaders = none := rfl

theorem lookup_eq_none_of_all_keys_ne (k : String) (l : List (String × String))
    (h : ∀ p ∈ l, (p.1 == k) = false) : List.lookup k l = none := by
  induction l with
  | nil => rfl
  | cons p ps ih =>
    obtain ⟨a, b⟩ := p
    have ha : (a == k) = false := h (a, b) (List.mem_cons_self ..)
    have hka : (k == a) = false := by
      rw [beq_eq_false_iff_ne] at ha ⊢
      exact fun hk => ha hk.symm
    simp only [List.lookup, hka]
    exact ih (fun q hq => h q (List.mem_cons_of_mem _ hq))

theorem lookup_append_of_none {α β : Type} [BEq α] (k : α) (xs ys : List (α × β))
    (h : List.lookup k xs = none) : List.lookup k (xs ++ ys) = List.lookup k ys := by
  induction xs with
  | nil => simp
  | cons p ps ih =>
    obtain ⟨a, b⟩ := p
    simp only [List.cons_append, List.lookup] at h ⊢
    cases hk : k == a with
    | true => rw [hk] at h; exact Option.noConfusion h
    | false => rw [hk] at h; exact ih h

/-- C6 amended: every client built without a caller-supplied HTTP client
carries, as a default header on every request, the Basic authorization value
`base64(user_name ++ ":" ++ key)` computed once at construction; a
caller-supplied client keeps its own default headers and the computed
authorization header is not applied to it. -/
theorem build_default_client_has_auth (b : KaggleApiClientBuilder)
    (h : b.client = none) :
    List.lookup ("authorization") (build b).clientDefaultHeaders =
      some (authHeaderValue b.auth.user_name b.auth.key) := by
  simp only [build, h]
  simp only [headerInsert, List.filter_append, List.append_assoc]
  rw [lookup_append_of_none]
  · simp [List.lookup]
  · apply lookup_eq_none_of_all_keys_ne
    intro p hp
    have hmem := (List.mem_filter.mp hp).1
    have hne := (List.mem_filter.mp hmem).2
    simpa [bne] using hne

theorem build_default_client_has_auth_witness :
    List.lookup ("authorization") (build defaultishBuilder).clientDefaultHeaders =
      some (authHeaderValue ("name") ("key")) ∧
    authHeaderValue ("name") ("key") = ("Basic bmFtZTprZXk=") :=
  ⟨build_default_client_has_auth defaultishBuilder rfl, rfl⟩

/-- C7: the claim says the final path segment is the file's modification time
in seconds since an epoch; the code instead embeds the file's age,
`now - mtime`. Evaluated at a file of length 5 modified at epoch second
1000000000 with the clock at epoch second 1000000010: the embedded segment is
10, not 1000000000. -/
theorem upload_negotiation_embeds_age_not_epoch :
    get_file_metadata 5 (some 1000000000) 1000000010 = .ok (5, 10) ∧
    datasets_upload_file_path 5 10 = ("/datasets/upload/file/5/10") ∧
    (10 : Nat) ≠ 1000000000 := by
  refine ⟨?_, rfl, by omega⟩
  rfl

/-- C8 counterexample: a matching resource entry was supplied for the single
regular file, yet the produced `DatasetUploadFile` has `columns = none`
because the resource carries no schema, so "description and columns are set if
and only if a matching resource entry was supplied" fails in the only-if
direction for columns. -/
theorem upload_files_columns_unset_despite_match :
    upload_files (fun n _ _ => ("tok-") ++ n) schemalessResources singleFileEntries =
      .ok [{ token := ("tok-a.csv"), description := some ("d"), columns := none }] ∧
    (lookupResource schemalessResources ("a.csv")).isSome = true := ⟨rfl, rfl⟩

/-- C8 amended: a directory with exactly one regular file and no
sub-directories yields exactly one `DatasetUploadFile`; its token is the token
the negotiation call returns for that file name, its description is the
matching resource entry's description when one was supplied (and unset
otherwise), and its columns are set if and only if a matching resource entry
with a schema was supplied. -/
theorem upload_files_single_file (negotiate : String → Nat → Nat → String)
    (name : String) (contentLength lastModified : Nat) (resources : List Resource) :
    upload_files negotiate resources
        [{ name := name, kind := .file, meta := .ok (contentLength, lastModified) }] =
      .ok [{ token := negotiate name contentLength lastModified,
             description := (lookupResource resources name).bind (fun r => r.description),
             columns := (lookupResource resources name).bind (fun r => r.schema) }] := by
  simp only [upload_files, upload_file]
  cases hres : lookupResource resources name with
  | none => rfl
  | some r =>
    cases hsch : r.schema with
    | none => simp [hsch]
    | some cols => simp [hsch]

theorem framedReadFrames_flatten (rs : List (List Nat)) :
    ∀ buf, (framedReadFrames rs buf).flatten = buf ++ rs.flatten := by
  induction rs with
  | nil =>
    intro buf
    simp only [framedReadFrames, bytesCodecDecode]
    cases buf with
    | nil => simp
    | cons b bs => simp
  | cons r rs ih =>
    intro buf
    simp only [framedReadFrames, bytesCodecDecode]
    cases hbr : buf ++ r with
    | nil =>
      have hb : buf = [] := List.append_eq_nil.mp hbr |>.1
      have hr : r = [] := List.append_eq_nil.mp hbr |>.2
      simp [hb, hr, ih]
    | cons x xs =>
      have hne : (buf ++ r).isEmpty = false := by rw [hbr]; rfl
      rw [← hbr]
      simp only [hne, Bool.false_eq_true, if_false, List.flatten_cons, ih, List.append_nil,
        List.flatten_cons, List.append_assoc, List.nil_append]

/-- C9: round-trip of the Streaming Codec: for every content, however the
reader chunks it into successive reads, concatenating the chunks emitted by
`into_bytes_stream` in emission order reproduces exactly the original bytes,
with no duplication, loss or reordering; the empty content yields the empty
concatenation. -/
theorem into_bytes_stream_roundtrip (reads : List (List Nat)) :
    (into_bytes_stream reads).flatten = reads.flatten := by
  simpa using framedReadFrames_flatten reads []

theorem plainChar_not_space (c : Char) (h : plainChar c = true) : isC0OrSpace c = false := by
  simp only [plainChar, Bool.or_eq_true, Bool.and_eq_true, decide_eq_true_eq,
    beq_iff_eq] at h
  simp only [isC0OrSpace, decide_eq_false_iff_not, not_le]
  omega

theorem dropWhile_eq_self_of_all {p : Char → Bool} {l : List Char}
    (h : ∀ c ∈ l, p c = false) : l.dropWhile p = l := by
  cases l with
  | nil => rfl
  | cons a t =>
    rw [List.dropWhile_cons, h a (List.mem_cons_self ..)]
    simp

theorem trimList_eq_self_of_all {l : List Char} (h : ∀ c ∈ l, isC0OrSpace c = false) :
    trimList l = l := by
  unfold trimList
  rw [dropWhile_eq_self_of_all h,
    dropWhile_eq_self_of_all (fun c hc => h c (List.mem_reverse.mp hc)),
    List.reverse_reverse]

theorem noSpace_of_plainSlug {s : String} (h : plainSlug s = true) :
    ∀ c ∈ s.data, isC0OrSpace c = false := by
  intro c hc
  exact plainChar_not_space c (List.all_eq_true.mp h c hc)

theorem noSpace_append {a b : String}
    (ha : ∀ c ∈ a.data, isC0OrSpace c = false) (hb : ∀ c ∈ b.data, isC0OrSpace c = false) :
    ∀ c ∈ (a ++ b).data, isC0OrSpace c = false := by
  intro c hc
  rw [String.data_append] at hc
  rcases List.mem_append.mp hc with h | h
  · exact ha c h
  · exact hb c h

/-- A path-absolute reference free of trimmable characters replaces the base
path entirely. -/
theorem joinUrl_absolute (base : Url) (ref : String)
    (h0 : ∀ c ∈ ref.data, isC0OrSpace c = false)
    (h1 : ∃ t, ref.data = '/' :: t) :
    joinUrl base ref = { base with path := ref } := by
  have ht : trimInput ref = ref := by
    unfold trimInput
    rw [trimList_eq_self_of_all h0]
  unfold joinUrl
  rw [ht]
  obtain ⟨t, hdt⟩ := h1
  rw [hdt]
  rfl

/-- C10: with the default base URL `https://www.kaggle.com/api/v1`, no request
URL the client builds keeps the `/api/v1` prefix: the relative
`competitions/list` resolves against `/api/`, and the absolute leaderboard,
submission-URL and dataset-upload paths replace the base path entirely. -/
theorem join_url_no_api_v1 :
    (joinUrl default_base_url competitions_list_path =
        { scheme := ("https"), host := ("www.kaggle.com"),
          path := ("/api/competitions/list") } ∧
      startsWithApiV1 (joinUrl default_base_url competitions_list_path).path = false) ∧
    (∀ id : String, plainSlug id = true →
      joinUrl default_base_url (competition_view_leaderboard_path id) =
        { scheme := ("https"), host := ("www.kaggle.com"),
          path := competition_view_leaderboard_path id } ∧
      startsWithApiV1
        (joinUrl default_base_url (competition_view_leaderboard_path id)).path = false) ∧
    (∀ (id : String) (cl lm : Nat), plainSlug id = true →
      plainSlug (toString cl) = true → plainSlug (toString lm) = true →
      joinUrl default_base_url (competitions_submissions_url_path id cl lm) =
        { scheme := ("https"), host := ("www.kaggle.com"),
          path := competitions_submissions_url_path id cl lm } ∧
      startsWithApiV1
        (joinUrl default_base_url (competitions_submissions_url_path id cl lm)).path = false) ∧
    (∀ cl lm : Nat, plainSlug (toString cl) = true → plainSlug (toString lm) = true →
      joinUrl default_base_url (datasets_upload_file_path cl lm) =
        { scheme := ("https"), host := ("www.kaggle.com"),
          path := datasets_upload_file_path cl lm } ∧
      startsWithApiV1
        (joinUrl default_base_url (datasets_upload_file_path cl lm)).path = false) := by
  refine ⟨⟨rfl, rfl⟩, ?_, ?_, ?_⟩
  · intro id hid
    have h0 : ∀ c ∈ (competition_view_leaderboard_path id).data, isC0OrSpace c = false := by
      unfold competition_view_leaderboard_path
      exact noSpace_append (noSpace_append (by decide) (noSpace_of_plainSlug hid)) (by decide)
    have habs := joinUrl_absolute default_base_url _ h0 ⟨_, rfl⟩
    exact ⟨by rw [habs]; rfl, by rw [habs]; rfl⟩
  · intro id cl lm hid hcl hlm
    have h0 : ∀ c ∈ (competitions_submissions_url_path id cl lm).data,
        isC0OrSpace c = false := by
      unfold competitions_submissions_url_path
      exact noSpace_append (noSpace_append (noSpace_append (noSpace_append
        (noSpace_append (by decide) (noSpace_of_plainSlug hid)) (by decide))
        (noSpace_of_plainSlug hcl)) (by decide)) (noSpace_of_plainSlug hlm)
    have habs := joinUrl_absolute default_base_url _ h0 ⟨_, rfl⟩
    exact ⟨by rw [habs]; rfl, by rw [habs]; rfl⟩
  · intro cl lm hcl hlm
    have h0 : ∀ c ∈ (datasets_upload_file_path cl lm).data, isC0OrSpace c = false := by
      unfold datasets_upload_file_path
      exact noSpace_append (noSpace_append (noSpace_append (by decide)
        (noSpace_of_plainSlug hcl)) (by decide)) (noSpace_of_plainSlug hlm)
    have habs := joinUrl_absolute default_base_url _ h0 ⟨_, rfl⟩
    exact ⟨by rw [habs]; rfl, by rw [habs]; rfl⟩

theorem join_url_no_api_v1_witness :
    (joinUrl default_base_url (competition_view_leaderboard_path ("titanic")) =
        { scheme := ("https"), host := ("www.kaggle.com"),
          path := competition_view_leaderboard_path ("titanic") } ∧
      startsWithApiV1
        (joinUrl default_base_url (competition_view_leaderboard_path ("titanic"))).path =
          false) ∧
    (joinUrl default_base_url (datasets_upload_file_path 3 9) =
        { scheme := ("https"), host := ("www.kaggle.com"),
          path := datasets_upload_file_path 3 9 } ∧
      startsWithApiV1 (joinUrl default_base_url (datasets_upload_file_path 3 9)).path =
        false) :=
  ⟨join_url_no_api_v1.2.1 ("titanic") (by decide),
   join_url_no_api_v1.2.2.2 3 9 (by decide) (by decide)⟩

end KaggleRs
